import Mathlib

/-!
Verification of the LTI field-validation and serialization module
(coursebuilder/modules/lti/fields.py).

The module provides:
* a closed base set of LTI 1.2 field names plus two vendor extension
  fields under the reserved "custom_" name marker;
* `is_valid` (source `_is_valid`): membership in the recognized field set;
* `make`: builds an LTI post payload dict from a caller dict, applying
  system defaults, rejecting unrecognized keys (`ValueError` with message
  "Cannot include bad fields: ..."), and rejecting inputs that leave a
  required field without a value (`ValueError` with message
  "Missing required fields: ...");
* `get_custom_cb_force_login` and the three value validators;
* `_Serializer.dump` / `_Serializer.load`: yaml-parse + key validation +
  base64 transport codec.

Python dicts are embedded as association lists `List (String × String)`
with no duplicate keys; iteration order is list order.  Byte strings
(Python 2 `str`) are embedded as `List Nat` with entries below 256.
-/

namespace Fields

/-- Byte-wise lexicographic comparison of char lists, as Python 2 compares
byte strings (all strings in this module are ASCII). -/
def charListLe : List Char → List Char → Bool
  | [], _ => true
  | _ :: _, [] => false
  | a :: as, b :: bs =>
      if a.toNat < b.toNat then true
      else if b.toNat < a.toNat then false
      else charListLe as bs

/-- Python 2 string comparison `a <= b`. -/
def strLe (a b : String) : Bool :=
  charListLe a.data b.data

/-- The ordering relation used by Python's `sorted` on strings. -/
def strle (a b : String) : Prop :=
  strLe a b = true

instance : DecidableRel strle := fun a b => instDecidableEqBool (strLe a b) true

/-- Python's builtin `sorted` on a list of strings: lexicographic
insertion sort. -/
def sortStr (l : List String) : List String :=
  List.insertionSort strle l

/-- Char-list version of Python's `str.startswith`: does the second list
occur as a leading segment of the first? -/
def charListStarts : List Char → List Char → Bool
  | _, [] => true
  | [], _ :: _ => false
  | a :: as, b :: bs => a == b && charListStarts as bs

/-- Python's `s.startswith(pre)`. -/
def strStarts (s pre : String) : Bool :=
  charListStarts s.data pre.data

/-- ASCII lowercasing of one character, as Python 2 `str.lower` does per
byte. -/
def lowerChar (c : Char) : Char :=
  if 65 ≤ c.toNat ∧ c.toNat ≤ 90 then Char.ofNat (c.toNat + 32) else c

/-- Python 2 `s.lower()`. -/
def pyLower (s : String) : String :=
  ⟨s.data.map lowerChar⟩

-- Fields in the LTI spec (source constants CONTEXT_ID .. USER_IMAGE,
-- collected into the frozen set `_BASE`).
def BASE : List String :=
  ["context_id",
   "context_label",
   "context_title",
   "context_type",
   "launch_presentation_css_url",
   "launch_presentation_document_target",
   "launch_presentation_height",
   "launch_presentation_locale",
   "launch_presentation_return_url",
   "launch_presentation_width",
   "lis_person_contact_email_primary",
   "lis_person_name_family",
   "lis_person_name_full",
   "lis_person_name_given",
   "lti_message_type",
   "lti_version",
   "resource_link_description",
   "resource_link_id",
   "resource_link_title",
   "role_scope_mentor",
   "roles",
   "tool_consumer_info_product_family_code",
   "tool_consumer_info_version",
   "tool_consumer_instance_contact_email",
   "tool_consumer_instance_description",
   "tool_consumer_instance_guid",
   "tool_consumer_instance_name",
   "tool_consumer_instance_url",
   "user_id",
   "user_image"]

-- Source: CUSTOM_CB_FORCE_LOGIN = _CUSTOM_... + 'cb_force_login', where the
-- reserved custom-field marker is the string 'custom_'.
def CUSTOM_CB_FORCE_LOGIN : String := "custom_cb_force_login"

def CUSTOM_CB_RESOURCE : String := "custom_cb_resource"

-- Source: `_EXTENSIONS`, the two CB vendor extension fields.
def EXTENSIONS : List String := [CUSTOM_CB_FORCE_LOGIN, CUSTOM_CB_RESOURCE]

-- Source: `_ALL = sorted(_BASE.union(_EXTENSIONS))`.
def ALL : List String := sortStr (BASE ++ EXTENSIONS)

def LTI_MESSAGE_TYPE_VALID : String := "basic-lti-launch-request"

def LTI_VERSION_VALID : String := "LTI-1p0"

-- Source: `_REQUIRED`, required fields in the LTI spec.
def REQUIRED : List String := ["lti_message_type", "lti_version", "resource_link_id"]

-- Source: `_DEFAULTS`, the system-supplied default field values.
def DEFAULTS : List (String × String) :=
  [("lti_message_type", LTI_MESSAGE_TYPE_VALID),
   ("lti_version", LTI_VERSION_VALID)]

/-- Source `_is_valid(name)`: `name in _ALL or name.startswith('custom_')`. -/
def is_valid (name : String) : Bool :=
  ALL.contains name || strStarts name "custom_"

/-- First-match association-list lookup: Python `dict.get` (dicts hold no
duplicate keys, so first match is the only match). -/
def lookupKey (d : List (String × String)) (k : String) : Option String :=
  match d with
  | [] => none
  | p :: rest => if p.1 == k then some p.2 else lookupKey rest k

/-- Python dict assignment `d[k] = v`: replace the value in place when the
key is present, otherwise append the new entry. -/
def dictSet (d : List (String × String)) (k v : String) : List (String × String) :=
  if d.any (fun p => p.1 == k) then
    d.map (fun p => if p.1 == k then (k, v) else p)
  else
    d ++ [(k, v)]

/-- Source `get_custom_cb_force_login(request_dict)`: gets
CUSTOM_CB_FORCE_LOGIN from the dict; absent gives `False`, else
`True if value.lower() == 'true' else False`. -/
def get_custom_cb_force_login (request_dict : List (String × String)) : Bool :=
  match lookupKey request_dict CUSTOM_CB_FORCE_LOGIN with
  | none => false
  | some value => pyLower value == "true"

/-- Source `lti_message_type_valid(message_type)`. -/
def lti_message_type_valid (message_type : String) : Bool :=
  message_type == LTI_MESSAGE_TYPE_VALID

/-- Source `lti_version_valid(version)`. -/
def lti_version_valid (version : String) : Bool :=
  version == LTI_VERSION_VALID

/-- Source `resource_link_id_valid(resource_link_id)`: `bool(...)`, i.e.
the string is non-empty. -/
def resource_link_id_valid (resource_link_id : String) : Bool :=
  resource_link_id != ""

/-- One iteration of the loop in `make`: `missing.discard(k)`, then either
collect `k` into `bad_fields` or set `to_dict[k] = v`.  The state is
`(bad_fields, missing, to_dict)`. -/
def makeStep (st : List String × List String × List (String × String))
    (kv : String × String) : List String × List String × List (String × String) :=
  let miss := st.2.1.erase kv.1
  if !is_valid kv.1 then (st.1 ++ [kv.1], miss, st.2.2)
  else (st.1, miss, dictSet st.2.2 kv.1 kv.2)

/-- The checks after the loop in `make`: raise `ValueError`
("Cannot include bad fields: ..." with the offending keys sorted), then
`ValueError` ("Missing required fields: ..." with the missing keys
sorted), else return the merged dict `to_dict`. -/
def makeResult (st : List String × List String × List (String × String)) :
    Except String (List (String × String)) :=
  if !st.1.isEmpty then
    .error ("Cannot include bad fields: " ++ String.intercalate ", " (sortStr st.1))
  else if !st.2.1.isEmpty then
    .error ("Missing required fields: " ++ String.intercalate ", " (sortStr st.2.1))
  else
    .ok st.2.2

/-- Source `make(from_dict)`: starts from `_DEFAULTS`, marks the required
fields not covered by a default as missing (`set(_REQUIRED) -
set(_DEFAULTS)`), folds the loop over the input entries, then applies the
post-loop checks. -/
def make (from_dict : List (String × String)) :
    Except String (List (String × String)) :=
  makeResult (from_dict.foldl makeStep
    ([], REQUIRED.filter (fun r => !(DEFAULTS.any (fun p => p.1 == r))), DEFAULTS))

/-- Modelled from the spec: the external base64 codec's encoding alphabet
(Python `base64.b64encode` is stdlib, not repository code).  Maps a sextet
to the ASCII code of its base64 digit. -/
def b64chr (n : Nat) : Nat :=
  if n < 26 then 65 + n
  else if n < 52 then 97 + (n - 26)
  else if n < 62 then 48 + (n - 52)
  else if n = 62 then 43
  else 47

/-- Modelled from the spec: the external base64 codec's decoding table.
Maps the ASCII code of a base64 digit back to its sextet. -/
def b64val (c : Nat) : Nat :=
  if 65 ≤ c ∧ c ≤ 90 then c - 65
  else if 97 ≤ c ∧ c ≤ 122 then c - 97 + 26
  else if 48 ≤ c ∧ c ≤ 57 then c - 48 + 52
  else if c = 43 then 62
  else 63

/-- Modelled from the spec: the external base64 codec (`base64.b64encode`).
Input and output are byte lists; 61 is the ASCII code of the padding
character. -/
def b64encode : List Nat → List Nat
  | [] => []
  | [b0] => [b64chr (b0 / 4), b64chr (b0 % 4 * 16), 61, 61]
  | [b0, b1] => [b64chr (b0 / 4), b64chr (b0 % 4 * 16 + b1 / 16), b64chr (b1 % 16 * 4), 61]
  | b0 :: b1 :: b2 :: rest =>
      b64chr (b0 / 4) :: b64chr (b0 % 4 * 16 + b1 / 16) ::
        b64chr (b1 % 16 * 4 + b2 / 64) :: b64chr (b2 % 64) :: b64encode rest

/-- Modelled from the spec: the external base64 codec (`base64.b64decode`). -/
def b64decode : List Nat → List Nat
  | c0 :: c1 :: c2 :: c3 :: rest =>
      if c2 = 61 then [b64val c0 * 4 + b64val c1 / 16]
      else if c3 = 61 then
        [b64val c0 * 4 + b64val c1 / 16, b64val c1 % 16 * 16 + b64val c2 / 4]
      else
        (b64val c0 * 4 + b64val c1 / 16) :: (b64val c1 % 16 * 16 + b64val c2 / 4) ::
          (b64val c2 % 4 * 64 + b64val c3) :: b64decode rest
  | _ => []

/-- The check-and-encode tail of `_Serializer.dump`: raise `ValueError`
("Cannot serialize invalid fields: ...", the collected keys joined in
iteration order — the source does NOT sort them here) when any bad fields
were collected, else base64-encode the ORIGINAL input text. -/
def dumpResult (bad_fields : List String) (fields_str : List Nat) :
    Except String (List Nat) :=
  if !bad_fields.isEmpty then
    .error ("Cannot serialize invalid fields: " ++ String.intercalate ", " bad_fields)
  else
    .ok (b64encode fields_str)

/-- Source `_Serializer.dump(fields_str)`: parse the structured text with
the external parser (`yaml.safe_load`, passed here as the parameter `pf`),
collect the unrecognized keys in mapping iteration order (the loop appends
each invalid key, which is exactly a filter over the keys in order), then
apply the check-and-encode tail. -/
def dump (pf : List Nat → List (String × String)) (fields_str : List Nat) :
    Except String (List Nat) :=
  dumpResult (((pf fields_str).map Prod.fst).filter (fun k => !is_valid k)) fields_str

/-- Source `_Serializer.load(serialized)`: base64-decode, then parse with
the external parser; no re-validation. -/
def load (pf : List Nat → List (String × String)) (serialized : List Nat) :
    List (String × String) :=
  pf (b64decode serialized)

/-- Modelled from the spec: the external structured-text parser
(`yaml.safe_load`) for one concrete round-trip example: a document that
parses to the single recognized field `resource_link_id`. -/
def rtParse : List Nat → List (String × String) :=
  fun _ => [("resource_link_id", "x")]

/-- Modelled from the spec: the external structured-text parser
(`yaml.safe_load`) for one concrete document with two unrecognized keys,
whose mapping iteration order is not lexicographically sorted (Python dict
iteration order is hash-dependent, not sorted). -/
def cexParse : List Nat → List (String × String) :=
  fun _ => [("zz_bad", "1"), ("aa_bad", "2")]

/-! Properties of the string ordering used by `sorted`. -/

theorem charListLe_total : ∀ l1 l2 : List Char,
    charListLe l1 l2 = true ∨ charListLe l2 l1 = true
  | [], _ => Or.inl rfl
  | _ :: _, [] => Or.inr rfl
  | a :: as, b :: bs => by
      by_cases hab : a.toNat < b.toNat
      · left; simp [charListLe, hab]
      · by_cases hba : b.toNat < a.toNat
        · right; simp [charListLe, hba]
        · rcases charListLe_total as bs with h | h
          · left; simp [charListLe, hab, hba, h]
          · right; simp [charListLe, hab, hba, h]

theorem charListLe_trans : ∀ l1 l2 l3 : List Char,
    charListLe l1 l2 = true → charListLe l2 l3 = true → charListLe l1 l3 = true
  | [], _, _ => fun _ _ => rfl
  | a :: as, [], _ => by simp [charListLe]
  | _ :: _, _ :: _, [] => by intro _ h2; simp [charListLe] at h2
  | a :: as, b :: bs, c :: cs => by
      intro h1 h2
      simp only [charListLe] at h1 h2 ⊢
      by_cases hab : a.toNat < b.toNat
      · by_cases hbc : b.toNat < c.toNat
        · simp [show a.toNat < c.toNat by omega]
        · by_cases hcb : c.toNat < b.toNat
          · simp [hbc, hcb] at h2
          · simp [show a.toNat < c.toNat by omega]
      · by_cases hba : b.toNat < a.toNat
        · simp [hab, hba] at h1
        · simp only [if_neg hab, if_neg hba] at h1
          by_cases hbc : b.toNat < c.toNat
          · simp [show a.toNat < c.toNat by omega]
          · by_cases hcb : c.toNat < b.toNat
            · simp [hbc, hcb] at h2
            · simp only [if_neg hbc, if_neg hcb] at h2
              have hac : ¬a.toNat < c.toNat := by omega
              have hca : ¬c.toNat < a.toNat := by omega
              simp only [if_neg hac, if_neg hca]
              exact charListLe_trans as bs cs h1 h2

theorem charListLe_antisymm : ∀ l1 l2 : List Char,
    charListLe l1 l2 = true → charListLe l2 l1 = true → l1 = l2
  | [], [] => fun _ _ => rfl
  | [], _ :: _ => by intro _ h2; simp [charListLe] at h2
  | _ :: _, [] => by intro h1 _; simp [charListLe] at h1
  | a :: as, b :: bs => by
      intro h1 h2
      simp only [charListLe] at h1 h2
      by_cases hab : a.toNat < b.toNat
      · have hba : ¬b.toNat < a.toNat := by omega
        rw [if_neg hba, if_pos hab] at h2
        exact absurd h2 (by simp)
      · by_cases hba : b.toNat < a.toNat
        · simp [hab, hba] at h1
        · simp only [if_neg hab, if_neg hba] at h1 h2
          have ht : a.toNat = b.toNat := by omega
          have hc : a = b := Char.ext (UInt32.ext ht)
          rw [hc, charListLe_antisymm as bs h1 h2]

theorem strle_total (a b : String) : strle a b ∨ strle b a :=
  charListLe_total a.data b.data

theorem strle_trans (a b c : String) : strle a b → strle b c → strle a c :=
  charListLe_trans a.data b.data c.data

theorem strle_antisymm (a b : String) : strle a b → strle b a → a = b := by
  intro h1 h2
  cases a with
  | mk da => cases b with
    | mk db => exact congrArg String.mk (charListLe_antisymm da db h1 h2)

theorem sortStr_perm (l : List String) : (sortStr l).Perm l :=
  List.perm_insertionSort strle l

theorem sortStr_sorted (l : List String) : List.Sorted strle (sortStr l) := by
  haveI : IsTotal String strle := ⟨strle_total⟩
  haveI : IsTrans String strle := ⟨strle_trans⟩
  exact List.sorted_insertionSort strle l

theorem sortStr_eq_of_perm {l1 l2 : List String} (h : l1.Perm l2) :
    sortStr l1 = sortStr l2 := by
  haveI : IsAntisymm String strle := ⟨strle_antisymm⟩
  exact List.eq_of_perm_of_sorted
    ((sortStr_perm l1).trans (h.trans (sortStr_perm l2).symm))
    (sortStr_sorted l1) (sortStr_sorted l2)

/-! Association-list lemmas for the dict embedding. -/

theorem lookupKey_eq_none : ∀ (d : List (String × String)) (k : String),
    lookupKey d k = none ↔ k ∉ d.map Prod.fst
  | [], k => by simp [lookupKey]
  | p :: rest, k => by
      by_cases h : p.1 = k
      · simp [lookupKey, h]
      · simp only [lookupKey, beq_iff_eq, if_neg h, List.map_cons, List.mem_cons]
        rw [lookupKey_eq_none rest k]
        constructor
        · intro hn hmem
          rcases hmem with hmem | hmem
          · exact h hmem.symm
          · exact hn hmem
        · intro hn hmem
          exact hn (Or.inr hmem)

theorem lookupKey_append_of_none {d1 : List (String × String)} {k : String}
    (h : lookupKey d1 k = none) (d2 : List (String × String)) :
    lookupKey (d1 ++ d2) k = lookupKey d2 k := by
  induction d1 with
  | nil => rfl
  | cons p rest ih =>
      simp only [lookupKey] at h ⊢
      by_cases hp : p.1 = k
      · simp [hp] at h
      · simp only [beq_iff_eq, if_neg hp] at h ⊢
        exact ih h

theorem lookupKey_append_of_some {d1 : List (String × String)} {k v : String}
    (h : lookupKey d1 k = some v) (d2 : List (String × String)) :
    lookupKey (d1 ++ d2) k = some v := by
  induction d1 with
  | nil => simp [lookupKey] at h
  | cons p rest ih =>
      simp only [lookupKey] at h ⊢
      by_cases hp : p.1 = k
      · simpa [hp] using h
      · simp only [beq_iff_eq, if_neg hp] at h ⊢
        exact ih h

theorem lookupKey_map_replace_any : ∀ (d : List (String × String)) (k v : String),
    d.any (fun p => p.1 == k) = true →
    lookupKey (d.map (fun p => if p.1 == k then (k, v) else p)) k = some v
  | [], k, v => by simp
  | p :: rest, k, v => by
      intro h
      by_cases hp : p.1 = k
      · simp [lookupKey, hp]
      · have hb : (p.1 == k) = false := by simp [hp]
        have hr : rest.any (fun p => p.1 == k) = true := by
          simp only [List.any_cons, hb, Bool.false_or] at h
          exact h
        simp only [List.map_cons, hb, Bool.false_eq_true, if_false, lookupKey]
        exact lookupKey_map_replace_any rest k v hr

theorem lookupKey_map_replace_ne : ∀ (d : List (String × String)) (k v k2 : String),
    k2 ≠ k →
    lookupKey (d.map (fun p => if p.1 == k then (k, v) else p)) k2 = lookupKey d k2
  | [], _, _, _ => fun _ => rfl
  | p :: rest, k, v, k2 => by
      intro hne
      by_cases hp : p.1 = k
      · have hb : (p.1 == k) = true := by simp [hp]
        have h1 : (k == k2) = false := beq_eq_false_iff_ne.mpr fun h => hne h.symm
        have h2 : (p.1 == k2) = false :=
          beq_eq_false_iff_ne.mpr fun h => hne (hp ▸ h).symm
        simp only [List.map_cons, hb, if_true, lookupKey, h1, h2, Bool.false_eq_true, if_false]
        exact lookupKey_map_replace_ne rest k v k2 hne
      · have hb : (p.1 == k) = false := by simp [hp]
        simp only [List.map_cons, hb, Bool.false_eq_true, if_false, lookupKey]
        by_cases hp2 : p.1 = k2
        · simp [hp2]
        · have hb2 : (p.1 == k2) = false := by simp [hp2]
          simp only [hb2, Bool.false_eq_true, if_false]
          exact lookupKey_map_replace_ne rest k v k2 hne

theorem any_eq_false_of_not_mem {d : List (String × String)} {k : String}
    (h : k ∉ d.map Prod.fst) : d.any (fun p => p.1 == k) = false := by
  induction d with
  | nil => rfl
  | cons p rest ih =>
      simp only [List.map_cons, List.mem_cons] at h
      push_neg at h
      simp only [List.any_cons, beq_iff_eq, Bool.or_eq_false_iff]
      exact ⟨by simpa using fun he => h.1 he.symm, ih h.2⟩

theorem lookup_dictSet_self (d : List (String × String)) (k v : String) :
    lookupKey (dictSet d k v) k = some v := by
  unfold dictSet
  by_cases h : d.any (fun p => p.1 == k) = true
  · rw [if_pos h]
    exact lookupKey_map_replace_any d k v h
  · rw [if_neg h]
    have hnone : lookupKey d k = none := by
      rw [lookupKey_eq_none]
      intro hmem
      rcases List.mem_map.mp hmem with ⟨p, hp, hpk⟩
      exact h (List.any_eq_true.mpr ⟨p, hp, by simp [hpk]⟩)
    rw [lookupKey_append_of_none hnone]
    simp [lookupKey]

theorem lookup_dictSet_ne (d : List (String × String)) (k v k2 : String)
    (hne : k2 ≠ k) : lookupKey (dictSet d k v) k2 = lookupKey d k2 := by
  unfold dictSet
  by_cases h : d.any (fun p => p.1 == k) = true
  · rw [if_pos h]
    exact lookupKey_map_replace_ne d k v k2 hne
  · rw [if_neg h]
    cases hl : lookupKey d k2 with
    | none =>
        rw [lookupKey_append_of_none hl]
        have hk : (k == k2) = false := beq_eq_false_iff_ne.mpr fun h => hne h.symm
        simp [lookupKey, hk]
    | some w => exact lookupKey_append_of_some hl _

theorem lookup_foldl_dictSet_not_mem :
    ∀ (entries : List (String × String)) (d0 : List (String × String)) (k : String),
    k ∉ entries.map Prod.fst →
    lookupKey (entries.foldl (fun d kv => dictSet d kv.1 kv.2) d0) k = lookupKey d0 k
  | [], _, _ => fun _ => rfl
  | kv :: rest, d0, k => by
      intro h
      simp only [List.map_cons, List.mem_cons] at h
      push_neg at h
      rw [List.foldl_cons, lookup_foldl_dictSet_not_mem rest _ k h.2,
        lookup_dictSet_ne d0 kv.1 kv.2 k h.1]

theorem lookup_foldl_dictSet_mem :
    ∀ (entries : List (String × String)) (d0 : List (String × String)) (k v : String),
    (entries.map Prod.fst).Nodup → (k, v) ∈ entries →
    lookupKey (entries.foldl (fun d kv => dictSet d kv.1 kv.2) d0) k = some v
  | [], _, _, _ => by simp
  | kv :: rest, d0, k, v => by
      intro hnd hmem
      simp only [List.map_cons, List.nodup_cons] at hnd
      rcases List.mem_cons.mp hmem with heq | hmem2
      · subst heq
        rw [List.foldl_cons,
          lookup_foldl_dictSet_not_mem rest _ k (by simpa using hnd.1),
          lookup_dictSet_self]
      · rw [List.foldl_cons]
        exact lookup_foldl_dictSet_mem rest _ k v hnd.2 hmem2

/-! Decomposition of the loop inside `make`: the three state components
evolve independently of each other. -/

theorem foldl_makeStep_bad : ∀ (l : List (String × String)) (b m : List String)
    (o : List (String × String)),
    (l.foldl makeStep (b, m, o)).1 = b ++ (l.map Prod.fst).filter (fun k => !is_valid k)
  | [], b, m, o => by simp
  | kv :: l, b, m, o => by
      simp only [List.foldl_cons, List.map_cons, List.filter_cons]
      by_cases h : is_valid kv.1
      · rw [show makeStep (b, m, o) kv = (b, m.erase kv.1, dictSet o kv.1 kv.2) by
          simp [makeStep, h]]
        rw [foldl_makeStep_bad l b _ _]
        simp [h]
      · have hb : is_valid kv.1 = false := by simpa using h
        rw [show makeStep (b, m, o) kv = (b ++ [kv.1], m.erase kv.1, o) by
          simp [makeStep, hb]]
        rw [foldl_makeStep_bad l (b ++ [kv.1]) _ _]
        simp [hb]

theorem foldl_makeStep_miss : ∀ (l : List (String × String)) (b m : List String)
    (o : List (String × String)),
    (l.foldl makeStep (b, m, o)).2.1 = (l.map Prod.fst).foldl List.erase m
  | [], b, m, o => by simp
  | kv :: l, b, m, o => by
      simp only [List.foldl_cons, List.map_cons]
      by_cases h : is_valid kv.1
      · rw [show makeStep (b, m, o) kv = (b, m.erase kv.1, dictSet o kv.1 kv.2) by
          simp [makeStep, h]]
        exact foldl_makeStep_miss l b _ _
      · have hb : is_valid kv.1 = false := by simpa using h
        rw [show makeStep (b, m, o) kv = (b ++ [kv.1], m.erase kv.1, o) by
          simp [makeStep, hb]]
        exact foldl_makeStep_miss l (b ++ [kv.1]) _ _

theorem foldl_makeStep_out : ∀ (l : List (String × String)) (b m : List String)
    (o : List (String × String)),
    (l.foldl makeStep (b, m, o)).2.2 =
      (l.filter (fun kv => is_valid kv.1)).foldl (fun d kv => dictSet d kv.1 kv.2) o
  | [], b, m, o => by simp
  | kv :: l, b, m, o => by
      simp only [List.foldl_cons, List.filter_cons]
      by_cases h : is_valid kv.1
      · rw [show makeStep (b, m, o) kv = (b, m.erase kv.1, dictSet o kv.1 kv.2) by
          simp [makeStep, h]]
        rw [foldl_makeStep_out l b _ _]
        simp [h]
      · have hb : is_valid kv.1 = false := by simpa using h
        rw [show makeStep (b, m, o) kv = (b ++ [kv.1], m.erase kv.1, o) by
          simp [makeStep, hb]]
        rw [foldl_makeStep_out l (b ++ [kv.1]) _ _]
        simp [hb]

theorem foldl_erase_nil : ∀ ks : List String, ks.foldl List.erase [] = []
  | [] => rfl
  | k :: ks => by
      rw [List.foldl_cons, List.erase_nil]
      exact foldl_erase_nil ks

theorem foldl_erase_singleton : ∀ (ks : List String) (a : String),
    ks.foldl List.erase [a] = if a ∈ ks then [] else [a]
  | [], a => by simp
  | k :: ks, a => by
      by_cases h : a = k
      · subst h
        rw [List.foldl_cons, show [a].erase a = [] by simp, foldl_erase_nil]
        simp
      · rw [List.foldl_cons, show [a].erase k = [a] by
          simp [List.erase_cons, beq_eq_false_iff_ne.mpr h]]
        rw [foldl_erase_singleton ks a]
        simp [List.mem_cons, h]

/-- The required fields not covered by a system default: just
`resource_link_id`. -/
theorem required_minus_defaults :
    REQUIRED.filter (fun r => !(DEFAULTS.any (fun p => p.1 == r))) = ["resource_link_id"] := by
  rfl

/-! Characterization of `make` on each of its three outcomes. -/

theorem make_eq_error_bad (l : List (String × String))
    (h : (l.map Prod.fst).filter (fun k => !is_valid k) ≠ []) :
    make l = .error ("Cannot include bad fields: " ++ String.intercalate ", "
      (sortStr ((l.map Prod.fst).filter (fun k => !is_valid k)))) := by
  unfold make makeResult
  rw [foldl_makeStep_bad l _ _ _]
  simp only [List.nil_append]
  rw [if_pos]
  simp [List.isEmpty_iff, h]

theorem make_eq_error_missing (l : List (String × String))
    (hval : ∀ k ∈ l.map Prod.fst, is_valid k = true)
    (habs : "resource_link_id" ∉ l.map Prod.fst) :
    make l = .error "Missing required fields: resource_link_id" := by
  have hbad : (l.map Prod.fst).filter (fun k => !is_valid k) = [] := by
    rw [List.filter_eq_nil_iff]
    intro k hk
    simp [hval k hk]
  unfold make makeResult
  rw [foldl_makeStep_bad l _ _ _, foldl_makeStep_miss l _ _ _]
  simp only [List.nil_append, hbad, required_minus_defaults]
  rw [foldl_erase_singleton, if_neg habs]
  rfl

theorem make_eq_ok (l : List (String × String))
    (hval : ∀ k ∈ l.map Prod.fst, is_valid k = true)
    (hreq : "resource_link_id" ∈ l.map Prod.fst) :
    make l = .ok (l.foldl (fun d kv => dictSet d kv.1 kv.2) DEFAULTS) := by
  have hbad : (l.map Prod.fst).filter (fun k => !is_valid k) = [] := by
    rw [List.filter_eq_nil_iff]
    intro k hk
    simp [hval k hk]
  have hfil : l.filter (fun kv => is_valid kv.1) = l :=
    List.filter_eq_self.mpr fun kv hkv => hval kv.1 (List.mem_map.mpr ⟨kv, hkv, rfl⟩)
  unfold make makeResult
  rw [foldl_makeStep_bad l _ _ _, foldl_makeStep_miss l _ _ _, foldl_makeStep_out l _ _ _]
  simp only [List.nil_append, hbad, required_minus_defaults, hfil]
  rw [foldl_erase_singleton, if_pos hreq]
  rfl

/-! Round-trip of the base64 codec. -/

theorem b64val_b64chr : ∀ n, n < 64 → b64val (b64chr n) = n := by decide

theorem b64chr_ne_pad : ∀ n, n < 64 → b64chr n ≠ 61 := by decide

theorem b64_roundtrip : ∀ l : List Nat, (∀ b ∈ l, b < 256) →
    b64decode (b64encode l) = l
  | [] => fun _ => rfl
  | [b0] => by
      intro h
      have hb0 : b0 < 256 := h b0 (by simp)
      have h1 : b0 / 4 < 64 := by omega
      have h2 : b0 % 4 * 16 < 64 := by omega
      simp only [b64encode, b64decode, if_pos rfl, b64val_b64chr _ h1, b64val_b64chr _ h2]
      have : b0 / 4 * 4 + b0 % 4 * 16 / 16 = b0 := by omega
      rw [this]
      simp
  | [b0, b1] => by
      intro h
      have hb0 : b0 < 256 := h b0 (by simp)
      have hb1 : b1 < 256 := h b1 (by simp)
      have h1 : b0 / 4 < 64 := by omega
      have h2 : b0 % 4 * 16 + b1 / 16 < 64 := by omega
      have h3 : b1 % 16 * 4 < 64 := by omega
      simp only [b64encode, b64decode, if_neg (b64chr_ne_pad _ h3), if_pos rfl,
        b64val_b64chr _ h1, b64val_b64chr _ h2, b64val_b64chr _ h3]
      have e0 : b0 / 4 * 4 + (b0 % 4 * 16 + b1 / 16) / 16 = b0 := by omega
      have e1 : (b0 % 4 * 16 + b1 / 16) % 16 * 16 + b1 % 16 * 4 / 4 = b1 := by omega
      rw [e0, e1]
      simp
  | b0 :: b1 :: b2 :: rest => by
      intro h
      have hb0 : b0 < 256 := h b0 (by simp)
      have hb1 : b1 < 256 := h b1 (by simp)
      have hb2 : b2 < 256 := h b2 (by simp)
      have h1 : b0 / 4 < 64 := by omega
      have h2 : b0 % 4 * 16 + b1 / 16 < 64 := by omega
      have h3 : b1 % 16 * 4 + b2 / 64 < 64 := by omega
      have h4 : b2 % 64 < 64 := by omega
      have hrest : ∀ b ∈ rest, b < 256 := fun b hb => h b (by simp [hb])
      show b64decode (b64chr (b0 / 4) :: b64chr (b0 % 4 * 16 + b1 / 16) ::
        b64chr (b1 % 16 * 4 + b2 / 64) :: b64chr (b2 % 64) :: b64encode rest) = _
      rw [b64decode, if_neg (b64chr_ne_pad _ h3), if_neg (b64chr_ne_pad _ h4)]
      rw [b64val_b64chr _ h1, b64val_b64chr _ h2, b64val_b64chr _ h3, b64val_b64chr _ h4]
      have e0 : b0 / 4 * 4 + (b0 % 4 * 16 + b1 / 16) / 16 = b0 := by omega
      have e1 : (b0 % 4 * 16 + b1 / 16) % 16 * 16 + (b1 % 16 * 4 + b2 / 64) / 4 = b1 := by
        omega
      have e2 : (b1 % 16 * 4 + b2 / 64) % 4 * 64 + b2 % 64 = b2 := by omega
      rw [e0, e1, e2, b64_roundtrip rest hrest]

/-! The claims. -/

/-- C1: for every input mapping whose keys are all recognized and that
supplies `resource_link_id` (the only required field without a system
default), `make` succeeds and the result contains every key/value pair of
the input and every default pair not overridden by the input. -/
theorem claim_make_success_superset (l : List (String × String))
    (hnd : (l.map Prod.fst).Nodup)
    (hval : ∀ k ∈ l.map Prod.fst, is_valid k = true)
    (hreq : "resource_link_id" ∈ l.map Prod.fst) :
    ∃ d, make l = .ok d ∧
      (∀ kv ∈ l, lookupKey d kv.1 = some kv.2) ∧
      (∀ kv ∈ DEFAULTS, kv.1 ∉ l.map Prod.fst → lookupKey d kv.1 = some kv.2) := by
  refine ⟨l.foldl (fun d kv => dictSet d kv.1 kv.2) DEFAULTS, make_eq_ok l hval hreq,
    ?_, ?_⟩
  · intro kv hkv
    exact lookup_foldl_dictSet_mem l DEFAULTS kv.1 kv.2 hnd (by simpa using hkv)
  · intro kv hkv habs
    rw [lookup_foldl_dictSet_not_mem l DEFAULTS kv.1 habs]
    simp only [DEFAULTS, List.mem_cons, List.mem_singleton] at hkv
    rcases hkv with h | h | h
    · rw [h]; rfl
    · rw [h]; rfl
    · simp at h

/-- C1 witness: the singleton input supplying only `resource_link_id`. -/
theorem claim_make_success_superset_witness :
    ([("resource_link_id", "x")].map Prod.fst).Nodup ∧
    (∀ k ∈ [("resource_link_id", "x")].map Prod.fst, is_valid k = true) ∧
    "resource_link_id" ∈ [("resource_link_id", "x")].map Prod.fst ∧
    ∃ d, make [("resource_link_id", "x")] = .ok d ∧
      (∀ kv ∈ [("resource_link_id", "x")], lookupKey d kv.1 = some kv.2) ∧
      (∀ kv ∈ DEFAULTS, kv.1 ∉ [("resource_link_id", "x")].map Prod.fst →
        lookupKey d kv.1 = some kv.2) :=
  ⟨by decide, by decide, by decide,
    claim_make_success_superset [("resource_link_id", "x")] (by decide) (by decide)
      (by decide)⟩

/-- C2: for every input mapping with at least one unrecognized key, `make`
fails with the InvalidField error, whose message enumerates exactly the
offending keys in sorted (lexicographic) order. -/
theorem claim_make_invalid_field (l : List (String × String))
    (h : ∃ k ∈ l.map Prod.fst, is_valid k = false) :
    ∃ s, s.Perm ((l.map Prod.fst).filter (fun k => !is_valid k)) ∧
      List.Sorted strle s ∧
      make l = .error ("Cannot include bad fields: " ++ String.intercalate ", " s) := by
  refine ⟨sortStr ((l.map Prod.fst).filter (fun k => !is_valid k)), sortStr_perm _,
    sortStr_sorted _, ?_⟩
  apply make_eq_error_bad
  rcases h with ⟨k, hk, hv⟩
  exact List.ne_nil_of_mem (List.mem_filter.mpr ⟨hk, by simp [hv]⟩)

/-- C2 witness: one recognized and one bogus key. -/
theorem claim_make_invalid_field_witness :
    (∃ k ∈ [("resource_link_id", "x"), ("bogus_field", "y")].map Prod.fst,
      is_valid k = false) ∧
    ∃ s, s.Perm (([("resource_link_id", "x"), ("bogus_field", "y")].map Prod.fst).filter
        (fun k => !is_valid k)) ∧
      List.Sorted strle s ∧
      make [("resource_link_id", "x"), ("bogus_field", "y")] =
        .error ("Cannot include bad fields: " ++ String.intercalate ", " s) :=
  ⟨by decide, claim_make_invalid_field [("resource_link_id", "x"), ("bogus_field", "y")]
    (by decide)⟩

/-- C3: for every input mapping whose keys are all recognized but that
omits `resource_link_id`, `make` fails with the MissingRequiredField
error; the message enumerates exactly the missing required keys (the only
required field lacking a default is `resource_link_id`, so the sorted
enumeration is that single key). -/
theorem claim_make_missing_required (l : List (String × String))
    (hval : ∀ k ∈ l.map Prod.fst, is_valid k = true)
    (habs : "resource_link_id" ∉ l.map Prod.fst) :
    make l = .error "Missing required fields: resource_link_id" ∧
      REQUIRED.filter (fun r => !(DEFAULTS.any (fun p => p.1 == r))) =
        ["resource_link_id"] :=
  ⟨make_eq_error_missing l hval habs, required_minus_defaults⟩

/-- C3 witness: a mapping with one recognized, non-required key. -/
theorem claim_make_missing_required_witness :
    (∀ k ∈ [("context_id", "c")].map Prod.fst, is_valid k = true) ∧
    "resource_link_id" ∉ [("context_id", "c")].map Prod.fst ∧
    (make [("context_id", "c")] = .error "Missing required fields: resource_link_id" ∧
      REQUIRED.filter (fun r => !(DEFAULTS.any (fun p => p.1 == r))) =
        ["resource_link_id"]) :=
  ⟨by decide, by decide, claim_make_missing_required [("context_id", "c")] (by decide)
    (by decide)⟩

/-- C4: `make {resource_link_id: "x"}` returns exactly the three-entry
mapping with the two defaults and the supplied pair, and nothing else. -/
theorem claim_make_minimal_exact :
    make [("resource_link_id", "x")] =
      .ok [("lti_message_type", "basic-lti-launch-request"),
           ("lti_version", "LTI-1p0"),
           ("resource_link_id", "x")] := by
  rfl

/-- C5 counterexample: the source joins the offending keys of
`_Serializer.dump` WITHOUT sorting them, so for a parsed mapping that
iterates its bad keys in the order `zz_bad, aa_bad` the message is not the
sorted enumeration (`aa_bad, zz_bad`). -/
theorem claim_encode_invalid_sorted_cex :
    dump cexParse [] = .error ("Cannot serialize invalid fields: " ++
        String.intercalate ", " ["zz_bad", "aa_bad"]) ∧
      sortStr ["zz_bad", "aa_bad"] = ["aa_bad", "zz_bad"] ∧
      ("Cannot serialize invalid fields: " ++
          String.intercalate ", " ["zz_bad", "aa_bad"]) ≠
        ("Cannot serialize invalid fields: " ++
          String.intercalate ", " ["aa_bad", "zz_bad"]) :=
  ⟨by rfl, by decide, by decide⟩

/-- C5 (amended): for every structured-text input whose parsed mapping
contains an unrecognized key, `encode` fails with the InvalidField error
before performing any base64 encoding (no encoded output is produced),
and the message enumerates all offending keys in the parsed mapping's
iteration order (NOT sorted). -/
theorem claim_encode_invalid_field (pf : List Nat → List (String × String))
    (s : List Nat) (h : ∃ k ∈ (pf s).map Prod.fst, is_valid k = false) :
    dump pf s = .error ("Cannot serialize invalid fields: " ++ String.intercalate ", "
        (((pf s).map Prod.fst).filter (fun k => !is_valid k))) ∧
      ∀ out, dump pf s ≠ .ok out := by
  have hne : ((pf s).map Prod.fst).filter (fun k => !is_valid k) ≠ [] := by
    rcases h with ⟨k, hk, hv⟩
    exact List.ne_nil_of_mem (List.mem_filter.mpr ⟨hk, by simp [hv]⟩)
  have herr : dump pf s = .error ("Cannot serialize invalid fields: " ++
      String.intercalate ", " (((pf s).map Prod.fst).filter (fun k => !is_valid k))) := by
    unfold dump dumpResult
    rw [if_pos]
    simp [List.isEmpty_iff, hne]
  exact ⟨herr, fun out hout => by rw [herr] at hout; exact Except.noConfusion hout⟩

/-- C5 witness: the amended theorem applied to the two-bad-key document. -/
theorem claim_encode_invalid_field_witness :
    (∃ k ∈ (cexParse []).map Prod.fst, is_valid k = false) ∧
    (dump cexParse [] = .error ("Cannot serialize invalid fields: " ++
        String.intercalate ", "
        (((cexParse []).map Prod.fst).filter (fun k => !is_valid k))) ∧
      ∀ out, dump cexParse [] ≠ .ok out) :=
  ⟨by decide, claim_encode_invalid_field cexParse [] (by decide)⟩

/-- C6: for every structured text whose parsed keys are all recognized,
`encode` succeeds returning the base64 encoding of the ORIGINAL input
text, and `decode` of that encoding (base64-decode then parse, with no
re-validation) yields exactly the mapping parsed from the original
text. -/
theorem claim_encode_decode_roundtrip (pf : List Nat → List (String × String))
    (s : List Nat) (hbytes : ∀ b ∈ s, b < 256)
    (hkeys : ∀ k ∈ (pf s).map Prod.fst, is_valid k = true) :
    dump pf s = .ok (b64encode s) ∧ load pf (b64encode s) = pf s := by
  constructor
  · have hnil : ((pf s).map Prod.fst).filter (fun k => !is_valid k) = [] := by
      rw [List.filter_eq_nil_iff]
      intro k hk
      simp [hkeys k hk]
    unfold dump
    rw [hnil]
    rfl
  · unfold load
    rw [b64_roundtrip s hbytes]

/-- C6 witness: round-trip on the bytes of the text "lti". -/
theorem claim_encode_decode_roundtrip_witness :
    (∀ b ∈ [108, 116, 105], b < 256) ∧
    (∀ k ∈ (rtParse [108, 116, 105]).map Prod.fst, is_valid k = true) ∧
    (dump rtParse [108, 116, 105] = .ok (b64encode [108, 116, 105]) ∧
      load rtParse (b64encode [108, 116, 105]) = rtParse [108, 116, 105]) :=
  ⟨by decide, by decide,
    claim_encode_decode_roundtrip rtParse [108, 116, 105] (by decide) (by decide)⟩

/-- C7: `getForceLoginFlag` returns false when the flag field is absent;
when present with value v it returns true exactly when v lowercased is the
literal "true"; in particular "TRUE" (any case) gives true while "yes" and
"1" give false. -/
theorem claim_get_force_login_flag (d : List (String × String)) :
    (lookupKey d CUSTOM_CB_FORCE_LOGIN = none → get_custom_cb_force_login d = false) ∧
    (∀ v, lookupKey d CUSTOM_CB_FORCE_LOGIN = some v →
      (get_custom_cb_force_login d = true ↔ pyLower v = "true")) ∧
    get_custom_cb_force_login [(CUSTOM_CB_FORCE_LOGIN, "TrUe")] = true ∧
    get_custom_cb_force_login [(CUSTOM_CB_FORCE_LOGIN, "yes")] = false ∧
    get_custom_cb_force_login [(CUSTOM_CB_FORCE_LOGIN, "1")] = false := by
  refine ⟨?_, ?_, by decide, by decide, by decide⟩
  · intro h
    unfold get_custom_cb_force_login
    rw [h]
  · intro v h
    unfold get_custom_cb_force_login
    rw [h]
    exact beq_iff_eq

/-- C7 witness: the empty mapping has no flag field, so the flag is
false. -/
theorem claim_get_force_login_flag_witness :
    get_custom_cb_force_login [] = false :=
  (claim_get_force_login_flag []).1 rfl

/-- C8: a string is a recognized field exactly when it is an exact member
of the closed base set or of the two-element extension set, or it starts
with the reserved marker "custom_"; in particular "custom_anything" is
recognized though not explicitly enumerated. -/
theorem claim_is_recognized_field (name : String) :
    (is_valid name = true ↔
      name ∈ BASE ∨ name ∈ EXTENSIONS ∨ strStarts name "custom_" = true) ∧
    is_valid "custom_anything" = true := by
  refine ⟨?_, by decide⟩
  unfold is_valid
  rw [Bool.or_eq_true]
  constructor
  · intro h
    rcases h with h | h
    · have hmem : name ∈ ALL := by simpa using h
      have hm2 : name ∈ BASE ++ EXTENSIONS := (sortStr_perm _).subset hmem
      rcases List.mem_append.mp hm2 with h2 | h2
      · exact Or.inl h2
      · exact Or.inr (Or.inl h2)
    · exact Or.inr (Or.inr h)
  · intro h
    rcases h with h | h | h
    · refine Or.inl ?_
      simpa using (sortStr_perm _).symm.subset (List.mem_append.mpr (Or.inl h))
    · refine Or.inl ?_
      simpa using (sortStr_perm _).symm.subset (List.mem_append.mpr (Or.inr h))
    · exact Or.inr h

/-- C8 witness: instantiation at a base field name. -/
theorem claim_is_recognized_field_witness :
    (is_valid "context_id" = true ↔
      "context_id" ∈ BASE ∨ "context_id" ∈ EXTENSIONS ∨
        strStarts "context_id" "custom_" = true) ∧
    is_valid "custom_anything" = true :=
  claim_is_recognized_field "context_id"

/-- C9: `make` is order independent: on two permutations of the same
mapping (no duplicate keys) it yields the same error (kind and sorted
message) or extensionally equal result dicts. -/
theorem claim_make_order_independent (l1 l2 : List (String × String))
    (hp : l1.Perm l2) (hnd : (l1.map Prod.fst).Nodup) :
    (∀ e, make l1 = .error e ↔ make l2 = .error e) ∧
    (∀ d1 d2, make l1 = .ok d1 → make l2 = .ok d2 →
      ∀ k, lookupKey d1 k = lookupKey d2 k) := by
  have hkeys : (l1.map Prod.fst).Perm (l2.map Prod.fst) := hp.map Prod.fst
  have hnd2 : (l2.map Prod.fst).Nodup := hkeys.nodup hnd
  have hbadperm : ((l1.map Prod.fst).filter (fun k => !is_valid k)).Perm
      ((l2.map Prod.fst).filter (fun k => !is_valid k)) := hkeys.filter _
  by_cases hbad : (l1.map Prod.fst).filter (fun k => !is_valid k) = []
  · have hbad2 : (l2.map Prod.fst).filter (fun k => !is_valid k) = [] :=
      (hbad ▸ hbadperm : ([] : List String).Perm _).symm.eq_nil
    have hval1 : ∀ k ∈ l1.map Prod.fst, is_valid k = true := by
      intro k hk
      have := List.filter_eq_nil_iff.mp hbad k hk
      simpa using this
    have hval2 : ∀ k ∈ l2.map Prod.fst, is_valid k = true := by
      intro k hk
      have := List.filter_eq_nil_iff.mp hbad2 k hk
      simpa using this
    by_cases hreq : "resource_link_id" ∈ l1.map Prod.fst
    · have hreq2 : "resource_link_id" ∈ l2.map Prod.fst := hkeys.subset hreq
      have hok1 := make_eq_ok l1 hval1 hreq
      have hok2 := make_eq_ok l2 hval2 hreq2
      constructor
      · intro e
        rw [hok1, hok2]
        exact ⟨fun h => Except.noConfusion h, fun h => Except.noConfusion h⟩
      · intro d1 d2 h1 h2 k
        rw [hok1] at h1
        rw [hok2] at h2
        have hd1 : d1 = l1.foldl (fun d kv => dictSet d kv.1 kv.2) DEFAULTS :=
          (Except.ok.inj h1).symm
        have hd2 : d2 = l2.foldl (fun d kv => dictSet d kv.1 kv.2) DEFAULTS :=
          (Except.ok.inj h2).symm
        subst hd1
        subst hd2
        by_cases hk : k ∈ l1.map Prod.fst
        · rcases List.mem_map.mp hk with ⟨kv, hkv, hfst⟩
          have hm1 : (k, kv.2) ∈ l1 := by
            rw [← hfst]
            simpa using hkv
          have hm2 : (k, kv.2) ∈ l2 := hp.subset hm1
          rw [lookup_foldl_dictSet_mem l1 DEFAULTS k kv.2 hnd hm1,
            lookup_foldl_dictSet_mem l2 DEFAULTS k kv.2 hnd2 hm2]
        · have hk2 : k ∉ l2.map Prod.fst := fun h => hk (hkeys.symm.subset h)
          rw [lookup_foldl_dictSet_not_mem l1 DEFAULTS k hk,
            lookup_foldl_dictSet_not_mem l2 DEFAULTS k hk2]
    · have hreq2 : "resource_link_id" ∉ l2.map Prod.fst :=
        fun h => hreq (hkeys.symm.subset h)
      have he1 := make_eq_error_missing l1 hval1 hreq
      have he2 := make_eq_error_missing l2 hval2 hreq2
      refine ⟨fun e => by rw [he1, he2], fun d1 d2 h1 h2 k => ?_⟩
      rw [he1] at h1
      exact Except.noConfusion h1
  · have hbad2 : (l2.map Prod.fst).filter (fun k => !is_valid k) ≠ [] := by
      intro h2
      exact hbad ((h2 ▸ hbadperm.symm : ([] : List String).Perm _).symm.eq_nil)
    have he1 := make_eq_error_bad l1 hbad
    have he2 := make_eq_error_bad l2 hbad2
    have hmsg : sortStr ((l1.map Prod.fst).filter (fun k => !is_valid k)) =
        sortStr ((l2.map Prod.fst).filter (fun k => !is_valid k)) :=
      sortStr_eq_of_perm hbadperm
    rw [hmsg] at he1
    refine ⟨fun e => by rw [he1, he2], fun d1 d2 h1 h2 k => ?_⟩
    rw [he1] at h1
    exact Except.noConfusion h1

/-- C9 witness: a two-entry mapping and its transposition. -/
theorem claim_make_order_independent_witness :
    [("resource_link_id", "x"), ("context_id", "c")].Perm
      [("context_id", "c"), ("resource_link_id", "x")] ∧
    ([("resource_link_id", "x"), ("context_id", "c")].map Prod.fst).Nodup ∧
    ((∀ e, make [("resource_link_id", "x"), ("context_id", "c")] = .error e ↔
        make [("context_id", "c"), ("resource_link_id", "x")] = .error e) ∧
      (∀ d1 d2, make [("resource_link_id", "x"), ("context_id", "c")] = .ok d1 →
        make [("context_id", "c"), ("resource_link_id", "x")] = .ok d2 →
        ∀ k, lookupKey d1 k = lookupKey d2 k)) :=
  ⟨List.Perm.swap _ _ _, by decide,
    claim_make_order_independent _ _ (List.Perm.swap _ _ _) (by decide)⟩

/-- C10: `make` validates key membership and required-key presence only,
never values: for all string values (including ones the value validators
reject) it succeeds, and each supplied value overrides the corresponding
system default in the result; in particular an empty `resource_link_id`,
rejected by `resource_link_id_valid`, is accepted by `make`. -/
theorem claim_make_no_value_validation :
    (∀ v1 v2 v3 : String, ∃ d,
      make [("lti_message_type", v1), ("lti_version", v2), ("resource_link_id", v3)] =
        .ok d ∧
      lookupKey d "lti_message_type" = some v1 ∧
      lookupKey d "lti_version" = some v2 ∧
      lookupKey d "resource_link_id" = some v3) ∧
    lti_message_type_valid "not-a-launch-request" = false ∧
    lti_version_valid "LTI-2p0" = false ∧
    resource_link_id_valid "" = false ∧
    make [("resource_link_id", "")] =
      .ok [("lti_message_type", "basic-lti-launch-request"),
           ("lti_version", "LTI-1p0"), ("resource_link_id", "")] := by
  refine ⟨?_, by decide, by decide, by decide, by rfl⟩
  intro v1 v2 v3
  have hmapfst : [("lti_message_type", v1), ("lti_version", v2),
      ("resource_link_id", v3)].map Prod.fst =
      ["lti_message_type", "lti_version", "resource_link_id"] := rfl
  have hnd : ([("lti_message_type", v1), ("lti_version", v2),
      ("resource_link_id", v3)].map Prod.fst).Nodup := by
    rw [hmapfst]
    decide
  refine ⟨_, make_eq_ok _ (by rw [hmapfst]; decide) (by rw [hmapfst]; decide),
    ?_, ?_, ?_⟩
  · exact lookup_foldl_dictSet_mem _ DEFAULTS _ _ hnd (by simp)
  · exact lookup_foldl_dictSet_mem _ DEFAULTS _ _ hnd (by simp)
  · exact lookup_foldl_dictSet_mem _ DEFAULTS _ _ hnd (by simp)

end Fields
